import Mathlib

/-!
# Verification of the paropal reconciliation daemon

Shallow embedding of the paropal daemon (a Go program that keeps one cloud
instance provisioned on a schedule and destroys all instances in a nightly
window) together with proofs about the claims of its specification.

Modelling conventions:
* Go strings are modelled as Lean `String` (valid UTF-8; byte-for-byte
  equality of Go strings coincides with `String` equality).
* Go `time.Time` instants are modelled as `Int` nanoseconds relative to an
  arbitrary epoch; the Go zero `time.Time` is modelled as `0`.  The
  configured zone (`Asia/Seoul`, a fixed-offset zone without daylight
  saving) is modelled by its offset in nanoseconds, kept as a parameter.
* Go `time.Duration` values are `Int` nanoseconds (`time.Duration` is a
  signed 64-bit count of nanoseconds).
* Network calls and the process context are modelled by explicit
  environments: a per-attempt environment for the provision reconciler and
  a state-passing world interface for the cleanup reconciler.
-/

/-! ## Go string primitives used by the source -/

/-- `unicode.IsSpace` restricted to the Latin-1 range, which covers every
character the daemon ever splits or trims on: `\t`, `\n`, `\v`, `\f`,
`\r`, space, NEL (U+0085) and NBSP (U+00A0). -/
def goIsSpace (c : Char) : Bool :=
  c.toNat = 9 ∨ c.toNat = 10 ∨ c.toNat = 11 ∨ c.toNat = 12 ∨
    c.toNat = 13 ∨ c.toNat = 32 ∨ c.toNat = 133 ∨ c.toNat = 160

/-- Character-list version of `strings.TrimSpace`: drop leading and
trailing whitespace. -/
def trimChars (l : List Char) : List Char :=
  ((l.dropWhile goIsSpace).reverse.dropWhile goIsSpace).reverse

/-- Models `strings.TrimSpace`. -/
def goTrimSpace (s : String) : String :=
  String.mk (trimChars s.toList)

/-- Accumulating splitter behind `goFields`; `acc` is the word currently
being read. -/
def goFieldsAux : List Char → List Char → List (List Char)
  | [], acc => if acc = [] then [] else [acc]
  | c :: cs, acc =>
    if goIsSpace c then
      if acc = [] then goFieldsAux cs [] else acc :: goFieldsAux cs []
    else
      goFieldsAux cs (acc ++ [c])

/-- Models `strings.Fields`: split around maximal runs of whitespace. -/
def goFields (s : String) : List String :=
  (goFieldsAux s.toList []).map String.mk

/-- Models `strings.ToLower` for the ASCII letters the daemon compares
(error texts and the `Bearer` scheme). -/
def strToLower (s : String) : String :=
  String.mk (s.toList.map Char.toLower)

/-- Models `strings.EqualFold` restricted to ASCII case folding, which is
the folding relevant to the `Bearer` scheme comparison. -/
def goEqualFold (a b : String) : Bool :=
  strToLower a = strToLower b

/-- Does `l` contain `pat` as a contiguous subsequence? -/
def containsSeq (pat : List Char) : List Char → Bool
  | [] => pat.isEmpty
  | c :: rest => pat.isPrefixOf (c :: rest) || containsSeq pat rest

/-- Models `strings.Contains`. -/
def strContains (s sub : String) : Bool :=
  containsSeq sub.toList s.toList

/-- Models `strings.HasPrefix s pre` (byte prefix; for valid UTF-8 this is
the character-list prefix). -/
def goHasPrefix (s pre : String) : Bool :=
  pre.toList.isPrefixOf s.toList

/-! ## Compiled-in configuration constants (config.go) -/

def labelPrefix : String := "paropal-"

def nsPerSec : Int := 1000000000
def nsPerMin : Int := 60 * nsPerSec
def nsPerHour : Int := 60 * nsPerMin
def nsPerDay : Int := 24 * nsPerHour

def cleanupHourKST : Int := 0
def cleanupMinuteKST : Int := 10
def cleanupWindowStartHourKST : Int := 0
def cleanupWindowStartMinuteKST : Int := 0
def cleanupWindowEndHourKST : Int := 7
def cleanupWindowEndMinuteKST : Int := 0
def createHourKST : Int := 7
def createMinuteKST : Int := 10

def defaultCleanupSettleDelay : Int := 20 * nsPerSec
def defaultCleanupBackoffMin : Int := 15 * nsPerSec
def defaultCleanupBackoffMax : Int := 5 * nsPerMin
def defaultCleanupPassDeleteInterval : Int := 2 * nsPerSec
def defaultProvisionBackoffMin : Int := 15 * nsPerSec
def defaultProvisionBackoffMax : Int := 5 * nsPerMin

/-- The `Asia/Seoul` offset (UTC+9), used to instantiate witnesses. -/
def kstOffset : Int := 9 * nsPerHour

/-! ## Data model (config.go) -/

/-- Mirror of `vultrInstance`: the read-only snapshot of a cloud
instance. -/
structure vultrInstance where
  id : String
  status : String
  mainIP : String
  label : String
deriving DecidableEq, Repr

/-- Error outcome of the managed-instance query: either the distinguished
`errInstanceNotFound` or a transport/listing error message. -/
inductive ListErr where
  | notFound
  | other (msg : String)
deriving DecidableEq, Repr

/-! ## Backoff generator (cleanup.go, `nextBackoff`) -/

/-- Two's-complement wrap-around of a mathematical integer into the
signed 64-bit range `[-2^63, 2^63)`: the semantics of Go arithmetic on
`time.Duration`, whose overflow is defined to wrap. -/
def wrap64 (n : Int) : Int :=
  (n + 9223372036854775808) % 18446744073709551616 - 9223372036854775808

/-- Mirror of `nextBackoff`: double the current delay in Go's wrapping
signed 64-bit `time.Duration` arithmetic, clamped to the ceiling. -/
def nextBackoff (current maxDelay : Int) : Int :=
  if wrap64 (current * 2) > maxDelay then maxDelay else wrap64 (current * 2)

/-! ## Time window calculator (cleanup.go and the provision scheduler)

An instant `t : Int` is nanoseconds from the epoch; a fixed-offset zone is
`off : Int` nanoseconds east of UTC, so the local clock reads `t + off`.
`time.Date(y, mo, d, h, m, 0, 0, loc)` applied to the local calendar day
of `t` is `scheduledTodayAt`. -/

/-- The instant of today's `h:m:00` in the local day of `t` for the
fixed-offset zone `off`. -/
def scheduledTodayAt (t off h m : Int) : Int :=
  ((t + off) / nsPerDay) * nsPerDay + h * nsPerHour + m * nsPerMin - off

/-- Mirror of `nextCleanupTimeKST`: today's 00:10 local if still ahead,
else the same time tomorrow. -/
def nextCleanupTimeKST (t off : Int) : Int :=
  let scheduled := scheduledTodayAt t off cleanupHourKST cleanupMinuteKST
  if ¬ t < scheduled then scheduled + 24 * nsPerHour else scheduled

/-- Mirror of `nextProvisionTimeKST`: today's 07:10 local if still ahead,
else the same time tomorrow. -/
def nextProvisionTimeKST (t off : Int) : Int :=
  let scheduled := scheduledTodayAt t off createHourKST createMinuteKST
  if ¬ t < scheduled then scheduled + 24 * nsPerHour else scheduled

/-- Mirror of `cleanupWindowBounds`: today's window start and end
instants. -/
def cleanupWindowBounds (t off : Int) : Int × Int :=
  (scheduledTodayAt t off cleanupWindowStartHourKST cleanupWindowStartMinuteKST,
   scheduledTodayAt t off cleanupWindowEndHourKST cleanupWindowEndMinuteKST)

/-- Mirror of `isWithinCleanupWindow`: half-open containment in today's
window. -/
def isWithinCleanupWindow (t off : Int) : Bool :=
  if t < (cleanupWindowBounds t off).1 then false
  else decide (t < (cleanupWindowBounds t off).2)

/-! ## Managed-instance query (vultr.go, `firstInstanceWithLabelPrefix`)

The network pagination of `listAllInstances` is a collaborator; the query
is modelled on the listing it produces. -/

/-- The selection loop of `firstInstanceWithLabelPrefix` over the listed
instances, carrying the best candidate so far: skip labels without the
prefix, prefer candidates with a network address, and otherwise keep the
lexicographically larger label. -/
def firstInstanceLoop (pfx : String) : List vultrInstance → Option vultrInstance → Option vultrInstance
  | [], best => best
  | inst :: rest, best =>
    if ¬ goHasPrefix inst.label pfx then firstInstanceLoop pfx rest best
    else
      match best with
      | none => firstInstanceLoop pfx rest (some inst)
      | some b =>
        if b.mainIP = "" ∧ inst.mainIP ≠ "" then firstInstanceLoop pfx rest (some inst)
        else if b.mainIP ≠ "" ∧ inst.mainIP = "" then firstInstanceLoop pfx rest (some b)
        else if b.label < inst.label then firstInstanceLoop pfx rest (some inst)
        else firstInstanceLoop pfx rest (some b)

/-- Mirror of `firstInstanceWithLabelPrefix` applied to a listing: the
best prefix-matching instance, or the distinguished not-found error. -/
def firstInstanceWithLabelPrefix (pfx : String) (instances : List vultrInstance) :
    Except ListErr vultrInstance :=
  match firstInstanceLoop pfx instances none with
  | some best => .ok best
  | none => .error .notFound

/-! ## Instance labels (`newInstanceLabel`) -/

/-- The local-time components that the Go layout `01-02_15-04-05`
consumes. -/
structure GoLocalTime where
  month : Nat
  day : Nat
  hour : Nat
  minute : Nat
  second : Nat
deriving DecidableEq, Repr

/-- Two-digit zero padding, as produced by Go's reference-time layout. -/
def pad2 (n : Nat) : String :=
  if n < 10 then "0" ++ toString n else toString n

/-- The Go format `01-02_15-04-05` of a local time. -/
def formatStamp (t : GoLocalTime) : String :=
  pad2 t.month ++ "-" ++ pad2 t.day ++ "_" ++
    pad2 t.hour ++ "-" ++ pad2 t.minute ++ "-" ++ pad2 t.second

/-- Mirror of `newInstanceLabel`: the managed prefix followed by a local
timestamp. -/
def newInstanceLabel (t : GoLocalTime) : String :=
  labelPrefix ++ formatStamp t

/-! ## Error classifiers (provision source file) -/

/-- Mirror of `isBlockAlreadyAttachedError` on the error's message (the
`nil` receiver case is represented by `Option.none` at call sites). -/
def isBlockAlreadyAttachedError (msg : String) : Bool :=
  let m := strToLower msg
  strContains m "already attached" || strContains m "already in use"

/-- Mirror of `isTerminatingInstanceStatus`. -/
def isTerminatingInstanceStatus (status : String) : Bool :=
  let s := strToLower (goTrimSpace status)
  if s = "" then false
  else
    strContains s "destroy" || strContains s "delete" ||
      strContains s "terminate" || strContains s "remov"

/-! ## Provision reconciler (provision source file)

Each retry attempt consults the cloud at most once per operation, so the
environment of one attempt is a record of the responses the cloud would
give; the loop environment supplies one such record per attempt together
with the cancellation observations. -/

/-- Mirror of `provisionRunState`: the per-invocation memory of a created
instance. -/
structure provisionRunState where
  instanceID : String
  label : String
deriving DecidableEq, Repr

/-- Instrumentation of one attempt: how many existence queries (list
calls) and create calls it issued, how many creates succeeded, and the
instance ids it attached the volume to, in order. -/
structure AttemptTrace where
  listCalls : Nat
  createCalls : Nat
  createSuccesses : Nat
  attachCalls : List String
deriving DecidableEq, Repr

/-- The cloud responses available to one provision attempt. -/
structure AttemptEnv where
  listResult : Except String (List vultrInstance)
  renderResult : Except String String
  nowLocal : GoLocalTime
  createResult : Except String String
  attachResult : String → Option String

/-- Mirror of the client's `createInstance` wrapper: a raw create response
is rejected when the trimmed instance id is empty. -/
def goCreateInstance (raw : Except String String) : Except String String :=
  match raw with
  | .error e => .error e
  | .ok rawID =>
    if goTrimSpace rawID = "" then .error "create instance response missing instance id"
    else .ok (goTrimSpace rawID)

/-- The existence query of an attempt: a listing failure is surfaced as a
non-not-found error, otherwise the managed-instance query runs on the
listing. -/
def attemptResolve (env : AttemptEnv) : Except ListErr vultrInstance :=
  match env.listResult with
  | .error e => .error (.other e)
  | .ok instances => firstInstanceWithLabelPrefix labelPrefix instances

/-- The shared volume-attach step (the tail of
`ensureParopalInstanceAndBlock`): an "already attached / already in use"
failure is swallowed only when this attempt did not itself create the
instance. -/
def attachStep (env : AttemptEnv) (createdNow : Bool) (instanceID : String) : Option String :=
  match env.attachResult instanceID with
  | some msg =>
    if isBlockAlreadyAttachedError msg && !createdNow then none
    else some ("attach block storage: " ++ msg)
  | none => none

/-- The create-then-attach tail of an attempt that found no usable
instance: render the cloud config, create, record the new instance in the
run state and attach with `createdNow = true`. -/
def provisionCreateThenAttach (env : AttemptEnv) (state : provisionRunState) :
    Option String × provisionRunState × AttemptTrace :=
  match env.renderResult with
  | .error e => (some e, state, ⟨1, 0, 0, []⟩)
  | .ok _cloudConfig =>
    match goCreateInstance env.createResult with
    | .error e => (some ("create instance: " ++ e), state, ⟨1, 1, 0, []⟩)
    | .ok instanceID =>
      let newState : provisionRunState := ⟨instanceID, newInstanceLabel env.nowLocal⟩
      (attachStep env true instanceID, newState, ⟨1, 1, 1, [instanceID]⟩)

/-- Mirror of `ensureParopalInstanceAndBlock`: when the run state already
records a created instance the existence query and the create path are
skipped and only the attach is retried; otherwise resolve an existing
managed instance (ignoring terminating ones) and create only if none is
usable. -/
def ensureParopalInstanceAndBlock (env : AttemptEnv) (state : provisionRunState) :
    Option String × provisionRunState × AttemptTrace :=
  if goTrimSpace state.instanceID ≠ "" then
    (attachStep env false state.instanceID, state, ⟨0, 0, 0, [state.instanceID]⟩)
  else
    match attemptResolve env with
    | .error (.other msg) => (some ("list instances: " ++ msg), state, ⟨1, 0, 0, []⟩)
    | .error .notFound => provisionCreateThenAttach env state
    | .ok inst =>
      if isTerminatingInstanceStatus inst.status then provisionCreateThenAttach env state
      else (attachStep env false inst.id, state, ⟨1, 0, 0, [inst.id]⟩)

/-- How a run of the provision reconciler ended. -/
inductive ProvisionOutcome where
  | success
  | cancelled
  | sleepCancelled
  | fuelOut
deriving DecidableEq, Repr

/-- The environment of a whole provision invocation: the cloud responses
for each attempt and the cancellation observations at the top of each
iteration and inside each backoff sleep. -/
structure ProvisionLoopEnv where
  attempts : Nat → AttemptEnv
  cancelledAt : Nat → Bool
  sleepCancelledAt : Nat → Bool

/-- The retry loop of `reconcileEnsureParopalInstance`, with explicit fuel
for the unbounded Go loop.  It returns the outcome and, for each attempt
that ran, the run state at the attempt's entry together with the attempt's
trace. -/
def provisionLoop (env : ProvisionLoopEnv) :
    Nat → Nat → provisionRunState → Int →
      ProvisionOutcome × List (provisionRunState × AttemptTrace)
  | 0, _, _, _ => (.fuelOut, [])
  | fuel + 1, k, st, backoff =>
    if env.cancelledAt k then (.cancelled, [])
    else
      let r := ensureParopalInstanceAndBlock (env.attempts k) st
      match r.1 with
      | none => (.success, [(st, r.2.2)])
      | some _ =>
        if env.sleepCancelledAt k then (.sleepCancelled, [(st, r.2.2)])
        else
          let rest := provisionLoop env fuel (k + 1) r.2.1
            (nextBackoff backoff defaultProvisionBackoffMax)
          (rest.1, (st, r.2.2) :: rest.2)

/-- Mirror of `reconcileEnsureParopalInstance`: start with an empty run
state and the minimum backoff. -/
def reconcileEnsureParopalInstance (env : ProvisionLoopEnv) (fuel : Nat) :
    ProvisionOutcome × List (provisionRunState × AttemptTrace) :=
  provisionLoop env fuel 0 ⟨"", ""⟩ defaultProvisionBackoffMin

/-! ## Cleanup reconciler (cleanup.go)

The cleanup loop interleaves clock reads, cancellation checks and network
calls, so its collaborators are modelled as a state-passing world: each
operation consumes a world state `σ` and returns its answer with the next
state. -/

/-- The collaborators of the cleanup reconciler. -/
structure CleanupWorld (σ : Type) where
  ctxErr : σ → Bool × σ
  timeNow : σ → Int × σ
  listAll : σ → Except String (List vultrInstance) × σ
  deleteInst : String → σ → Option String × σ
  sleepCancelled : σ → Bool × σ

/-- Mirror of `sleepWithContext`: the sleep succeeds unless cancellation
interrupts it. -/
def sleepWithContext {σ : Type} (w : CleanupWorld σ) (s : σ) : Bool × σ :=
  let c := w.sleepCancelled s
  (!c.1, c.2)

/-- Mirror of `sleepWithContextUntil`: a zero cutoff (the Go zero
`time.Time`, modelled as instant `0`) falls back to the unbounded sleep;
otherwise the sleep fails when the cutoff has passed, is interrupted by
cancellation, and on waking reports whether the cutoff is still ahead.
The requested duration `d` only shortens the real wait and does not affect
the reported outcome. -/
def sleepWithContextUntil {σ : Type} (w : CleanupWorld σ) (_d cutoff : Int) (s : σ) : Bool × σ :=
  if cutoff = 0 then sleepWithContext w s
  else
    let n := w.timeNow s
    if cutoff - n.1 ≤ 0 then (false, n.2)
    else
      let c := w.sleepCancelled n.2
      if c.1 then (false, c.2)
      else
        let n2 := w.timeNow c.2
        (decide (n2.1 < cutoff), n2.2)

/-- How a cleanup reconciliation ended; each constructor corresponds to
one `return` site of `reconcileDestroyAllInstances`. -/
inductive CleanupOutcome where
  | cancelled
  | cutoffStop
  | listSleepStop
  | cutoffMidPass
  | pauseStop
  | failSleepStop
  | settleStop
  | complete
  | fuelOut
deriving DecidableEq, Repr

/-- Counters of the network calls a cleanup run issued. -/
structure CleanupTally where
  listCalls : Nat
  deleteCalls : Nat
deriving DecidableEq, Repr

/-- The timing and pacing configuration of the cleanup reconciler (the
`app` fields consumed by it). -/
structure CleanupConfig where
  backoffMin : Int
  backoffMax : Int
  passDeleteInterval : Int
  settleDelay : Int

/-- The compiled-in defaults from config.go. -/
def defaultCleanupConfig : CleanupConfig :=
  ⟨defaultCleanupBackoffMin, defaultCleanupBackoffMax,
   defaultCleanupPassDeleteInterval, defaultCleanupSettleDelay⟩

/-- The delete pass of one cleanup iteration: for each listed instance
re-check the cutoff, count an empty id as a failure without a call,
attempt the delete, and pause between successful deletes.  Returns
`none` when the pass ran to the end of the listing, or the early-return
reason; alongside the failure count, the number of delete calls issued and
the final world state. -/
def cleanupDeletePass {σ : Type} (w : CleanupWorld σ) (cutoff interval : Int) :
    List vultrInstance → Nat → Nat → σ → Option CleanupOutcome × Nat × Nat × σ
  | [], failures, deletes, s => (none, failures, deletes, s)
  | inst :: rest, failures, deletes, s =>
    let n := w.timeNow s
    if ¬ n.1 < cutoff then (some .cutoffMidPass, failures, deletes, n.2)
    else if inst.id = "" then cleanupDeletePass w cutoff interval rest (failures + 1) deletes n.2
    else
      let d := w.deleteInst inst.id n.2
      match d.1 with
      | some _err => cleanupDeletePass w cutoff interval rest (failures + 1) (deletes + 1) d.2
      | none =>
        let slept := sleepWithContextUntil w interval cutoff d.2
        if !slept.1 then (some .pauseStop, failures, deletes + 1, slept.2)
        else cleanupDeletePass w cutoff interval rest failures (deletes + 1) slept.2

/-- The retry loop of `reconcileDestroyAllInstances`, with explicit fuel
for the unbounded Go loop: check cancellation, check the cutoff, list all
instances (retrying on failure with backoff), finish when the listing is
empty, otherwise run a delete pass and either retry with backoff (some
failures) or settle and re-verify (no failures). -/
def cleanupLoop {σ : Type} (w : CleanupWorld σ) (cutoff : Int) (cfg : CleanupConfig) :
    Nat → Int → Nat → Nat → σ → CleanupOutcome × CleanupTally × σ
  | 0, _, lists, deletes, s => (.fuelOut, ⟨lists, deletes⟩, s)
  | fuel + 1, backoff, lists, deletes, s =>
    let c := w.ctxErr s
    if c.1 then (.cancelled, ⟨lists, deletes⟩, c.2)
    else
      let n := w.timeNow c.2
      if ¬ n.1 < cutoff then (.cutoffStop, ⟨lists, deletes⟩, n.2)
      else
        let l := w.listAll n.2
        match l.1 with
        | .error _ =>
          let slept := sleepWithContextUntil w backoff cutoff l.2
          if !slept.1 then (.listSleepStop, ⟨lists + 1, deletes⟩, slept.2)
          else
            cleanupLoop w cutoff cfg fuel (nextBackoff backoff cfg.backoffMax)
              (lists + 1) deletes slept.2
        | .ok instances =>
          if instances.length = 0 then (.complete, ⟨lists + 1, deletes⟩, l.2)
          else
            match cleanupDeletePass w cutoff cfg.passDeleteInterval instances 0 0 l.2 with
            | (some why, _failures, d, s₂) => (why, ⟨lists + 1, deletes + d⟩, s₂)
            | (none, failures, d, s₂) =>
              if 0 < failures then
                let slept := sleepWithContextUntil w backoff cutoff s₂
                if !slept.1 then (.failSleepStop, ⟨lists + 1, deletes + d⟩, slept.2)
                else
                  cleanupLoop w cutoff cfg fuel (nextBackoff backoff cfg.backoffMax)
                    (lists + 1) (deletes + d) slept.2
              else
                let slept := sleepWithContextUntil w cfg.settleDelay cutoff s₂
                if !slept.1 then (.settleStop, ⟨lists + 1, deletes + d⟩, slept.2)
                else cleanupLoop w cutoff cfg fuel cfg.backoffMin (lists + 1) (deletes + d) slept.2

/-- Mirror of `reconcileDestroyAllInstances`: run the loop from the
minimum backoff with fresh counters. -/
def reconcileDestroyAllInstances {σ : Type} (w : CleanupWorld σ) (cutoff : Int)
    (cfg : CleanupConfig) (fuel : Nat) (s : σ) : CleanupOutcome × CleanupTally × σ :=
  cleanupLoop w cutoff cfg fuel cfg.backoffMin 0 0 s

/-! ### A faithful cloud simulation for the no-failure scenario

`listAll` reports the current inventory, deletes remove the instance with
the given id, the clock stands at `0`, and neither cancellation nor the
cutoff (placed at `1`) ever intervenes. -/

/-- The simulated cloud account: its current instance inventory. -/
structure CloudSimState where
  inventory : List vultrInstance
deriving Repr

/-- The no-failure simulation world. -/
def cloudSimWorld : CleanupWorld CloudSimState where
  ctxErr s := (false, s)
  timeNow s := (0, s)
  listAll s := (.ok s.inventory, s)
  deleteInst id s := (none, ⟨s.inventory.filter (fun i => i.id != id)⟩)
  sleepCancelled s := (false, s)

/-! ## Shutdown authentication (`authorizedBearerToken`) -/

/-- Models `crypto/subtle.ConstantTimeCompare` applied to the UTF-8 bytes
of two strings: it yields `1` exactly when the byte slices have equal
length and contents, i.e. when the strings are equal, and `0` otherwise. -/
def subtleConstantTimeCompare (x y : String) : Nat :=
  if x = y then 1 else 0

/-- Mirror of `authorizedBearerToken`: the header must split into exactly
two fields, the scheme must equal `Bearer` up to case folding, and the
presented token must have the expected byte length and compare equal. -/
def authorizedBearerToken (authHeader expectedToken : String) : Bool :=
  match goFields (goTrimSpace authHeader) with
  | [scheme, presentedToken] =>
    if goEqualFold scheme "Bearer" then
      if presentedToken.utf8ByteSize = expectedToken.utf8ByteSize then
        subtleConstantTimeCompare presentedToken expectedToken == 1
      else false
    else false
  | _ => false

/-! ## Concrete environments and inventories used by witnesses -/

/-- The inventory a delete pass leaves behind: each listed id has been
removed in turn. -/
def removeIds (listed inv : List vultrInstance) : List vultrInstance :=
  listed.foldl (fun acc i => acc.filter (fun x => x.id != i.id)) inv

/-- An attempt environment whose create call always fails while the
listing stays empty, so every retry takes the create path again. -/
def createFailsAttempt : AttemptEnv :=
  { listResult := .ok []
    renderResult := .ok ""
    nowLocal := ⟨2, 17, 7, 10, 0⟩
    createResult := .error "boom"
    attachResult := fun _ => none }

/-- The loop environment built from `createFailsAttempt`, never
cancelled. -/
def createFailsEnv : ProvisionLoopEnv :=
  { attempts := fun _ => createFailsAttempt
    cancelledAt := fun _ => false
    sleepCancelledAt := fun _ => false }

/-- An attempt environment that lists one healthy managed instance and
reports every attach as "already attached". -/
def alreadyAttachedExistingAttempt : AttemptEnv :=
  { listResult := .ok [⟨"inst-1", "active", "203.0.113.7", "paropal-02-17_07-10-00"⟩]
    renderResult := .ok ""
    nowLocal := ⟨2, 17, 7, 10, 0⟩
    createResult := .ok "inst-9"
    attachResult := fun _ => some "Block storage Already Attached to this instance" }

/-- An attempt environment with an empty listing, a successful create and
an attach that reports "already attached". -/
def alreadyAttachedCreateAttempt : AttemptEnv :=
  { listResult := .ok []
    renderResult := .ok ""
    nowLocal := ⟨2, 17, 7, 10, 0⟩
    createResult := .ok "inst-9"
    attachResult := fun _ => some "Block storage Already Attached to this instance" }

/-- A two-instance inventory with non-empty ids and labels outside the
managed prefix. -/
def twoInstances : List vultrInstance :=
  [⟨"inst-a", "active", "", "unrelated-a"⟩, ⟨"inst-b", "active", "", "unrelated-b"⟩]

/-! # Lemmas and claim theorems -/

/-! ## String lemmas -/

theorem dropWhile_self_idem (p : Char → Bool) (l : List Char) :
    (l.dropWhile p).dropWhile p = l.dropWhile p := by
  induction l with
  | nil => simp
  | cons c cs ih =>
    by_cases h : p c
    · simp [List.dropWhile_cons, h, ih]
    · simp [List.dropWhile_cons, h]

theorem dropWhile_head_false {p : Char → Bool} {l cs : List Char} {c : Char}
    (h : l.dropWhile p = c :: cs) : p c = false := by
  have hh := List.head?_dropWhile_not p l
  rw [h] at hh
  simpa using hh

theorem trimChars_head_false {l cs : List Char} {c : Char}
    (h : trimChars l = c :: cs) : goIsSpace c = false := by
  unfold trimChars at h
  set k := l.dropWhile goIsSpace with hk
  set u := k.reverse.dropWhile goIsSpace with hu
  have hune : u ≠ [] := by
    intro habs
    rw [habs] at h
    simp at h
  have hkrev : u <:+ k.reverse := by
    rw [hu]
    exact List.dropWhile_suffix goIsSpace
  obtain ⟨w, hw⟩ := hkrev
  have hkne : k ≠ [] := by
    intro habs
    rw [habs] at hw
    simp at hw
    exact hune hw.2
  obtain ⟨c', cs', hk'⟩ := List.exists_cons_of_ne_nil hkne
  have hpc' : goIsSpace c' = false := dropWhile_head_false (hk ▸ hk')
  have hlast : u.getLast? = some c' := by
    have h1 : (w ++ u).getLast? = u.getLast? := List.getLast?_append_of_ne_nil w hune
    rw [hw] at h1
    rw [← h1, List.getLast?_reverse, hk', List.head?_cons]
  have hhead : u.reverse.head? = some c := by
    rw [h, List.head?_cons]
  rw [List.head?_reverse, hlast] at hhead
  have : c = c' := by injection hhead.symm
  rw [this]
  exact hpc'

theorem trimChars_idem (l : List Char) : trimChars (trimChars l) = trimChars l := by
  rcases hm : trimChars l with _ | ⟨c, cs⟩
  · simp [trimChars]
  · have hcfalse : goIsSpace c = false := trimChars_head_false hm
    have hstep1 : (trimChars l).dropWhile goIsSpace = trimChars l := by
      rw [hm, List.dropWhile_cons, hcfalse]
      simp
    have hstep2 : (trimChars l).reverse.dropWhile goIsSpace = (trimChars l).reverse := by
      have h1 : (trimChars l).reverse = (l.dropWhile goIsSpace).reverse.dropWhile goIsSpace :=
        List.reverse_reverse _
      rw [h1, dropWhile_self_idem]
    rw [← hm]
    calc trimChars (trimChars l)
        = (((trimChars l).dropWhile goIsSpace).reverse.dropWhile goIsSpace).reverse := rfl
      _ = ((trimChars l).reverse.dropWhile goIsSpace).reverse := by rw [hstep1]
      _ = (trimChars l).reverse.reverse := by rw [hstep2]
      _ = trimChars l := List.reverse_reverse _

theorem toList_mk (l : List Char) : (String.mk l).toList = l := rfl

theorem goTrimSpace_idem (s : String) : goTrimSpace (goTrimSpace s) = goTrimSpace s := by
  unfold goTrimSpace
  rw [toList_mk, trimChars_idem]

theorem goCreateInstance_ok {raw : Except String String} {cid : String}
    (h : goCreateInstance raw = .ok cid) : goTrimSpace cid ≠ "" := by
  cases raw with
  | error e => simp [goCreateInstance] at h
  | ok rawID =>
    simp only [goCreateInstance] at h
    by_cases hz : goTrimSpace rawID = ""
    · rw [if_pos hz] at h
      exact absurd h (by simp)
    · rw [if_neg hz] at h
      have hcid : goTrimSpace rawID = cid := by injection h
      rw [← hcid, goTrimSpace_idem]
      exact hz

/-! ## C5: the backoff generator -/

theorem wrap64_eq_self {n : Int} (h1 : -9223372036854775808 ≤ n)
    (h2 : n < 9223372036854775808) : wrap64 n = n := by
  unfold wrap64
  rw [Int.emod_eq_of_lt (by omega) (by omega)]
  omega

theorem nextBackoff_fix {maxDelay : Int} (hm : 0 ≤ maxDelay)
    (hm2 : maxDelay < 4611686018427387904) :
    nextBackoff maxDelay maxDelay = maxDelay := by
  unfold nextBackoff
  rw [wrap64_eq_self (by omega) (by omega)]
  split <;> omega

theorem nextBackoff_iter_fix {maxDelay : Int} (hm : 0 ≤ maxDelay)
    (hm2 : maxDelay < 4611686018427387904) (i : Nat) :
    (fun c => nextBackoff c maxDelay)^[i] maxDelay = maxDelay := by
  induction i with
  | zero => simp
  | succ i ih =>
    rw [Function.iterate_succ_apply]
    simpa [nextBackoff_fix hm hm2] using ih

theorem nextBackoff_grow {maxDelay : Int} (hm : 0 ≤ maxDelay)
    (hm2 : maxDelay < 4611686018427387904) {c : Int} (hc : 0 < c)
    (hc2 : c < 4611686018427387904) (k : Nat) :
    (fun x => nextBackoff x maxDelay)^[k + 1] c = maxDelay ∨
      ((fun x => nextBackoff x maxDelay)^[k + 1] c = 2 ^ (k + 1) * c ∧
        2 ^ (k + 1) * c ≤ maxDelay) := by
  induction k with
  | zero =>
    rw [Function.iterate_one]
    unfold nextBackoff
    rw [wrap64_eq_self (by omega) (by omega)]
    by_cases h : c * 2 > maxDelay
    · left
      rw [if_pos h]
    · right
      rw [if_neg h]
      have h2 : (2 : Int) ^ (0 + 1) * c = c * 2 := by ring
      exact ⟨h2.symm, by linarith⟩
  | succ k ih =>
    rw [Function.iterate_succ_apply']
    rcases ih with h | ⟨heq, hle⟩
    · left
      rw [h]
      exact nextBackoff_fix hm hm2
    · rw [heq]
      unfold nextBackoff
      have hvpos : (0 : Int) < 2 ^ (k + 1) * c :=
        mul_pos (pow_pos (by norm_num) (k + 1)) hc
      have hvlt : (2 : Int) ^ (k + 1) * c < 4611686018427387904 := by linarith
      rw [wrap64_eq_self (by linarith) (by linarith)]
      by_cases h : 2 ^ (k + 1) * c * 2 > maxDelay
      · left
        rw [if_pos h]
      · right
        rw [if_neg h]
        have h2 : (2 : Int) ^ (k + 1 + 1) * c = 2 ^ (k + 1) * c * 2 := by ring
        exact ⟨h2.symm, by linarith⟩

theorem nextBackoff_reaches {maxDelay : Int} (hm : 0 ≤ maxDelay)
    (hm2 : maxDelay < 4611686018427387904) {c : Int} (hc : 0 < c)
    (hc2 : c < 4611686018427387904) :
    (fun x => nextBackoff x maxDelay)^[maxDelay.toNat + 1] c = maxDelay := by
  rcases nextBackoff_grow hm hm2 hc hc2 maxDelay.toNat with h | ⟨_, hle⟩
  · exact h
  · exfalso
    have h1 : (maxDelay.toNat : Int) = maxDelay := Int.toNat_of_nonneg hm
    have h2 : (maxDelay.toNat : Int) < 2 ^ maxDelay.toNat := by
      exact_mod_cast Nat.lt_two_pow maxDelay.toNat
    have h3 : (2 : Int) ^ maxDelay.toNat ≤ 2 ^ (maxDelay.toNat + 1) := by
      apply pow_le_pow_right₀ (by norm_num) (Nat.le_succ _)
    have h4 : (2 : Int) ^ (maxDelay.toNat + 1) ≤ 2 ^ (maxDelay.toNat + 1) * c := by
      nlinarith [pow_pos (show (0 : Int) < 2 by norm_num) (maxDelay.toNat + 1)]
    linarith

/-- C5 counterexample: the claim quantifies over every current delay and
ceiling, but `0` is a fixed point of doubling, so repeated application
from the starting value `0` never converges to the positive ceiling `300`;
a negative ceiling is not a fixed point of `nextBackoff`; and at
`current = 2^62` the doubling wraps in the source's signed 64-bit duration
arithmetic to `-2^63`, so the result is not `min (current * 2) max`
either. -/
theorem nextBackoff_claim_counterexample :
    nextBackoff 0 300 = 0 ∧ (0 : Int) ≠ 300 ∧ nextBackoff (-1) (-1) = -2 ∧
    nextBackoff 4611686018427387904 300 = -9223372036854775808 :=
  ⟨by decide, by decide, by decide, by decide⟩

/-- C5 (amended): `nextBackoff current max` equals the minimum of `max`
and the wrapped 64-bit doubling of `current` — which is
`min (current * 2) max` exactly when the doubling stays inside `int64`
(`-2^62 ≤ current < 2^62`); its output never exceeds `max` for all
inputs; `max` is a fixed point for `0 ≤ max < 2^62`; and repeated
application converges to and then stays at `max` from any positive
starting value below `2^62` with `0 ≤ max < 2^62`, rather than from any
starting value. -/
theorem nextBackoff_amended (current maxDelay : Int) :
    nextBackoff current maxDelay = min (wrap64 (current * 2)) maxDelay ∧
    (-4611686018427387904 ≤ current → current < 4611686018427387904 →
      nextBackoff current maxDelay = min (current * 2) maxDelay) ∧
    nextBackoff current maxDelay ≤ maxDelay ∧
    (0 ≤ maxDelay → maxDelay < 4611686018427387904 →
      nextBackoff maxDelay maxDelay = maxDelay) ∧
    (0 < current → current < 4611686018427387904 →
      0 ≤ maxDelay → maxDelay < 4611686018427387904 →
      ∀ j, maxDelay.toNat + 1 ≤ j →
        (fun c => nextBackoff c maxDelay)^[j] current = maxDelay) := by
  refine ⟨?_, ?_, ?_, fun hm hm2 => nextBackoff_fix hm hm2, ?_⟩
  · unfold nextBackoff
    split <;> omega
  · intro h1 h2
    unfold nextBackoff
    rw [wrap64_eq_self (by omega) (by omega)]
    split <;> omega
  · unfold nextBackoff
    split <;> omega
  · intro hc hc2 hm hm2 j hj
    have hsplit : j = (j - (maxDelay.toNat + 1)) + (maxDelay.toNat + 1) :=
      (Nat.sub_add_cancel hj).symm
    rw [hsplit, Function.iterate_add_apply, nextBackoff_reaches hm hm2 hc hc2,
      nextBackoff_iter_fix hm hm2]

/-- C5 witness: at `current = 2`, `max = 3` the amended theorem applies
with its hypotheses discharged concretely. -/
theorem nextBackoff_amended_witness :
    nextBackoff 2 3 = min (2 * 2) 3 ∧ (fun c => nextBackoff c 3)^[5] 2 = 3 :=
  ⟨(nextBackoff_amended 2 3).2.1 (by decide) (by decide),
    (nextBackoff_amended 2 3).2.2.2.2 (by decide) (by decide) (by decide)
      (by decide) 5 (by decide)⟩

/-! ## C6: the next-trigger computation -/

theorem scheduledTodayAt_future (t off h m : Int) (hh : 0 ≤ h) (hm : 0 ≤ m) :
    t < scheduledTodayAt t off h m + nsPerDay := by
  unfold scheduledTodayAt
  have hdm := Int.ediv_add_emod (t + off) nsPerDay
  have hlt := Int.emod_lt_of_pos (t + off) (show (0 : Int) < nsPerDay by decide)
  have hhn : 0 ≤ h * nsPerHour := mul_nonneg hh (by decide)
  have hmn : 0 ≤ m * nsPerMin := mul_nonneg hm (by decide)
  nlinarith [hdm, hlt, hhn, hmn]

/-- C6: for every instant, `nextCleanupTimeKST` and `nextProvisionTimeKST`
return today's occurrence of their scheduled hour:minute when the instant
is strictly before it, tomorrow's occurrence when the instant is at or
past it, and in either case an instant strictly after now. -/
theorem nextTrigger_strictly_future (t off : Int) :
    (t < scheduledTodayAt t off cleanupHourKST cleanupMinuteKST →
      nextCleanupTimeKST t off = scheduledTodayAt t off cleanupHourKST cleanupMinuteKST) ∧
    (scheduledTodayAt t off cleanupHourKST cleanupMinuteKST ≤ t →
      nextCleanupTimeKST t off =
        scheduledTodayAt t off cleanupHourKST cleanupMinuteKST + nsPerDay) ∧
    t < nextCleanupTimeKST t off ∧
    (t < scheduledTodayAt t off createHourKST createMinuteKST →
      nextProvisionTimeKST t off = scheduledTodayAt t off createHourKST createMinuteKST) ∧
    (scheduledTodayAt t off createHourKST createMinuteKST ≤ t →
      nextProvisionTimeKST t off =
        scheduledTodayAt t off createHourKST createMinuteKST + nsPerDay) ∧
    t < nextProvisionTimeKST t off := by
  have hday : (24 : Int) * nsPerHour = nsPerDay := by decide
  refine ⟨?_, ?_, ?_, ?_, ?_, ?_⟩
  · intro hlt
    unfold nextCleanupTimeKST
    rw [if_neg (by exact not_not_intro hlt)]
  · intro hle
    unfold nextCleanupTimeKST
    rw [if_pos (by omega), hday]
  · unfold nextCleanupTimeKST
    by_cases hlt : t < scheduledTodayAt t off cleanupHourKST cleanupMinuteKST
    · rw [if_neg (not_not_intro hlt)]
      exact hlt
    · rw [if_pos hlt, hday]
      exact scheduledTodayAt_future t off _ _ (by decide) (by decide)
  · intro hlt
    unfold nextProvisionTimeKST
    rw [if_neg (by exact not_not_intro hlt)]
  · intro hle
    unfold nextProvisionTimeKST
    rw [if_pos (by omega), hday]
  · unfold nextProvisionTimeKST
    by_cases hlt : t < scheduledTodayAt t off createHourKST createMinuteKST
    · rw [if_neg (not_not_intro hlt)]
      exact hlt
    · rw [if_pos hlt, hday]
      exact scheduledTodayAt_future t off _ _ (by decide) (by decide)

/-- C6 witness: with the configured zone offset, the spec's scenario
instants behave as claimed: 00:09:59 local schedules the same day's
00:10:00, and exactly 00:10:00 local schedules the next day's. -/
theorem nextTrigger_strictly_future_witness :
    nextCleanupTimeKST (599 * nsPerSec - kstOffset) kstOffset =
      600 * nsPerSec - kstOffset ∧
    nextCleanupTimeKST (600 * nsPerSec - kstOffset) kstOffset =
      600 * nsPerSec - kstOffset + nsPerDay := by
  constructor
  · have h := (nextTrigger_strictly_future (599 * nsPerSec - kstOffset) kstOffset).1 (by decide)
    rw [h]
    decide
  · have h :=
      (nextTrigger_strictly_future (600 * nsPerSec - kstOffset) kstOffset).2.1 (by decide)
    rw [h]
    decide

/-! ## C7: the cleanup window containment test -/

theorem day_ediv_add (d c : Int) (h0 : 0 ≤ c) (h1 : c < nsPerDay) :
    (d * nsPerDay + c) / nsPerDay = d := by
  have h : d * nsPerDay + c = c + nsPerDay * d := by ring
  rw [h, Int.add_mul_ediv_left c d (by decide : nsPerDay ≠ 0),
    Int.ediv_eq_zero_of_lt h0 h1, zero_add]

theorem cleanupWindowBounds_start_same (t off : Int) :
    cleanupWindowBounds (cleanupWindowBounds t off).1 off = cleanupWindowBounds t off := by
  unfold cleanupWindowBounds scheduledTodayAt
  simp only [cleanupWindowStartHourKST, cleanupWindowStartMinuteKST,
    cleanupWindowEndHourKST, cleanupWindowEndMinuteKST]
  have h : ((t + off) / nsPerDay) * nsPerDay + 0 * nsPerHour + 0 * nsPerMin - off + off
      = ((t + off) / nsPerDay) * nsPerDay + 0 := by ring
  rw [h, day_ediv_add _ 0 le_rfl (by decide)]

theorem cleanupWindowBounds_end_same (t off : Int) :
    cleanupWindowBounds (cleanupWindowBounds t off).2 off = cleanupWindowBounds t off := by
  unfold cleanupWindowBounds scheduledTodayAt
  simp only [cleanupWindowStartHourKST, cleanupWindowStartMinuteKST,
    cleanupWindowEndHourKST, cleanupWindowEndMinuteKST]
  have h : ((t + off) / nsPerDay) * nsPerDay + 7 * nsPerHour + 0 * nsPerMin - off + off
      = ((t + off) / nsPerDay) * nsPerDay + 7 * nsPerHour := by ring
  rw [h, day_ediv_add _ (7 * nsPerHour) (by decide) (by decide)]

/-- C7: the window containment test is half-open: it holds exactly on
`start ≤ now < end`; in particular it is true at the window's start
instant and false at the end instant itself. -/
theorem cleanup_window_half_open (t off : Int) :
    (isWithinCleanupWindow t off = true ↔
      (cleanupWindowBounds t off).1 ≤ t ∧ t < (cleanupWindowBounds t off).2) ∧
    isWithinCleanupWindow (cleanupWindowBounds t off).1 off = true ∧
    isWithinCleanupWindow (cleanupWindowBounds t off).2 off = false := by
  have hlt : (cleanupWindowBounds t off).1 < (cleanupWindowBounds t off).2 := by
    unfold cleanupWindowBounds scheduledTodayAt
    simp only [cleanupWindowStartHourKST, cleanupWindowStartMinuteKST,
      cleanupWindowEndHourKST, cleanupWindowEndMinuteKST]
    have h7 : (0 : Int) < 7 * nsPerHour := by decide
    linarith
  refine ⟨?_, ?_, ?_⟩
  · unfold isWithinCleanupWindow
    constructor
    · intro h
      by_cases hc : t < (cleanupWindowBounds t off).1
      · rw [if_pos hc] at h
        simp at h
      · rw [if_neg hc] at h
        simp at h
        exact ⟨le_of_not_lt hc, h⟩
    · rintro ⟨h1, h2⟩
      rw [if_neg (not_lt.mpr h1)]
      simpa using h2
  · unfold isWithinCleanupWindow
    rw [cleanupWindowBounds_start_same, if_neg (lt_irrefl _)]
    simpa using hlt
  · unfold isWithinCleanupWindow
    rw [cleanupWindowBounds_end_same, if_neg (not_lt.mpr (le_of_lt hlt))]
    simp

/-- C7 witness: the boundary behaviour at a concrete instant and the
configured zone offset. -/
theorem cleanup_window_half_open_witness :
    isWithinCleanupWindow (cleanupWindowBounds 0 kstOffset).1 kstOffset = true ∧
    isWithinCleanupWindow (cleanupWindowBounds 0 kstOffset).2 kstOffset = false :=
  ⟨(cleanup_window_half_open 0 kstOffset).2.1, (cleanup_window_half_open 0 kstOffset).2.2⟩

/-! ## C9: the shutdown bearer-token check -/

/-- C9: the bearer check accepts exactly the headers that split into two
whitespace-separated fields whose first field equals `Bearer` up to case
folding and whose second field is byte-for-byte the expected token; a
token of the wrong byte length fails the length comparison (and hence the
check) before any byte comparison. -/
theorem authorizedBearerToken_spec (authHeader expectedToken : String) :
    authorizedBearerToken authHeader expectedToken = true ↔
      ∃ scheme, goFields (goTrimSpace authHeader) = [scheme, expectedToken] ∧
        goEqualFold scheme "Bearer" = true := by
  unfold authorizedBearerToken
  rcases h : goFields (goTrimSpace authHeader) with _ | ⟨a, _ | ⟨b, _ | ⟨x, rest⟩⟩⟩
  · simp
  · simp
  · simp only []
    constructor
    · intro hauth
      by_cases hf : goEqualFold a "Bearer"
      · rw [if_pos hf] at hauth
        by_cases hsz : b.utf8ByteSize = expectedToken.utf8ByteSize
        · rw [if_pos hsz] at hauth
          have hbe : b = expectedToken := by
            by_contra hne
            simp [subtleConstantTimeCompare, hne] at hauth
          exact ⟨a, by rw [hbe], hf⟩
        · rw [if_neg hsz] at hauth
          exact absurd hauth (by simp)
      · rw [if_neg hf] at hauth
        exact absurd hauth (by simp)
    · rintro ⟨scheme, hl, hf⟩
      injection hl with h1 hl2
      injection hl2 with h2 _
      subst h1
      subst h2
      rw [if_pos hf, if_pos rfl]
      simp [subtleConstantTimeCompare]
  · simp

/-- C9 witness: the lowercase-scheme header from the spec's scenario is
accepted with the exact token. -/
theorem authorizedBearerToken_spec_witness :
    authorizedBearerToken "bearer s3cret-token" "s3cret-token" = true :=
  (authorizedBearerToken_spec "bearer s3cret-token" "s3cret-token").mpr
    ⟨"bearer", by decide, by decide⟩

/-! ## C8: the managed-instance selection -/

theorem firstInstanceLoop_cons_neg (pfx : String) (inst : vultrInstance)
    (rest : List vultrInstance) (acc : Option vultrInstance)
    (hpf : goHasPrefix inst.label pfx = false) :
    firstInstanceLoop pfx (inst :: rest) acc = firstInstanceLoop pfx rest acc := by
  simp only [firstInstanceLoop]
  rw [if_pos (by simp [hpf])]

theorem firstInstanceLoop_cons_none (pfx : String) (inst : vultrInstance)
    (rest : List vultrInstance) (hpf : goHasPrefix inst.label pfx = true) :
    firstInstanceLoop pfx (inst :: rest) none = firstInstanceLoop pfx rest (some inst) := by
  simp only [firstInstanceLoop]
  rw [if_neg (by simp [hpf])]

theorem firstInstanceLoop_cons_pos (pfx : String) (inst b : vultrInstance)
    (rest : List vultrInstance) (hpf : goHasPrefix inst.label pfx = true) :
    ∃ nb d,
      firstInstanceLoop pfx (inst :: rest) (some b) = firstInstanceLoop pfx rest (some nb) ∧
      ((nb = b ∧ d = inst) ∨ (nb = inst ∧ d = b)) ∧
      (d.mainIP ≠ "" → nb.mainIP ≠ "") ∧
      ((d.mainIP = "" ↔ nb.mainIP = "") → d.label ≤ nb.label) := by
  have hstep : firstInstanceLoop pfx (inst :: rest) (some b) =
      (if b.mainIP = "" ∧ inst.mainIP ≠ "" then firstInstanceLoop pfx rest (some inst)
       else if b.mainIP ≠ "" ∧ inst.mainIP = "" then firstInstanceLoop pfx rest (some b)
       else if b.label < inst.label then firstInstanceLoop pfx rest (some inst)
       else firstInstanceLoop pfx rest (some b)) := by
    simp only [firstInstanceLoop]
    rw [if_neg (by simp [hpf])]
  by_cases h1 : b.mainIP = "" ∧ inst.mainIP ≠ ""
  · refine ⟨inst, b, ?_, Or.inr ⟨rfl, rfl⟩, ?_, ?_⟩
    · rw [hstep, if_pos h1]
    · intro _
      exact h1.2
    · intro hiff
      exact absurd (hiff.mp h1.1) h1.2
  · by_cases h2 : b.mainIP ≠ "" ∧ inst.mainIP = ""
    · refine ⟨b, inst, ?_, Or.inl ⟨rfl, rfl⟩, ?_, ?_⟩
      · rw [hstep, if_neg h1, if_pos h2]
      · intro _
        exact h2.1
      · intro hiff
        exact absurd (hiff.mp h2.2) h2.1
    · have hiffp : b.mainIP = "" ↔ inst.mainIP = "" := by tauto
      by_cases h3 : b.label < inst.label
      · refine ⟨inst, b, ?_, Or.inr ⟨rfl, rfl⟩, ?_, ?_⟩
        · rw [hstep, if_neg h1, if_neg h2, if_pos h3]
        · exact fun hbne hi0 => hbne (hiffp.mpr hi0)
        · intro _
          exact le_of_lt h3
      · refine ⟨b, inst, ?_, Or.inl ⟨rfl, rfl⟩, ?_, ?_⟩
        · rw [hstep, if_neg h1, if_neg h2, if_neg h3]
        · exact fun hine hb0 => hine (hiffp.mp hb0)
        · intro _
          exact le_of_not_lt h3

theorem firstInstanceLoop_some_spec (pfx : String) (l : List vultrInstance) :
    ∀ b : vultrInstance,
      ∃ best, firstInstanceLoop pfx l (some b) = some best ∧
        best ∈ b :: l.filter (fun i => goHasPrefix i.label pfx) ∧
        (∀ c ∈ b :: l.filter (fun i => goHasPrefix i.label pfx),
          c.mainIP ≠ "" → best.mainIP ≠ "") ∧
        (∀ c ∈ b :: l.filter (fun i => goHasPrefix i.label pfx),
          (c.mainIP = "" ↔ best.mainIP = "") → c.label ≤ best.label) := by
  induction l with
  | nil =>
    intro b
    refine ⟨b, rfl, by simp, ?_, ?_⟩
    · intro c hc hcip
      have hcb : c = b := by simpa using hc
      rw [← hcb]
      exact hcip
    · intro c hc _
      have hcb : c = b := by simpa using hc
      rw [hcb]
  | cons inst rest ih =>
    intro b
    by_cases hpf : goHasPrefix inst.label pfx = true
    · obtain ⟨nb, d, hloop, hsplit, hA, hB⟩ := firstInstanceLoop_cons_pos pfx inst b rest hpf
      obtain ⟨best, hbest, hmem, hip, hlab⟩ := ih nb
      have hfilter : (inst :: rest).filter (fun i => goHasPrefix i.label pfx)
          = inst :: rest.filter (fun i => goHasPrefix i.label pfx) := by
        simp [List.filter_cons, hpf]
      have hbd : ∀ c : vultrInstance, c = b ∨ c = inst → c = nb ∨ c = d := by
        intro c hc
        rcases hsplit with ⟨hnb, hd⟩ | ⟨hnb, hd⟩ <;> rcases hc with hc | hc <;>
          simp [hnb, hd, hc]
      refine ⟨best, by rw [hloop, hbest], ?_, ?_, ?_⟩
      · rw [hfilter]
        rcases List.mem_cons.mp hmem with hm | hm
        · rcases hsplit with ⟨hnb, _⟩ | ⟨hnb, _⟩
          · rw [hm, hnb]
            exact List.mem_cons_self _ _
          · rw [hm, hnb]
            exact List.mem_cons_of_mem _ (List.mem_cons_self _ _)
        · exact List.mem_cons_of_mem _ (List.mem_cons_of_mem _ hm)
      · intro c hc hcip
        rw [hfilter] at hc
        rcases List.mem_cons.mp hc with hcb | hc2
        · rcases hbd c (Or.inl hcb) with hcn | hcd
          · exact hip nb (List.mem_cons_self _ _) (hcn ▸ hcip)
          · exact hip nb (List.mem_cons_self _ _) (hA (hcd ▸ hcip))
        · rcases List.mem_cons.mp hc2 with hci | hc3
          · rcases hbd c (Or.inr hci) with hcn | hcd
            · exact hip nb (List.mem_cons_self _ _) (hcn ▸ hcip)
            · exact hip nb (List.mem_cons_self _ _) (hA (hcd ▸ hcip))
          · exact hip c (List.mem_cons_of_mem _ hc3) hcip
      · intro c hc hciff
        rw [hfilter] at hc
        have hhandle : c = nb ∨ c = d → c.label ≤ best.label := by
          intro hcnd
          rcases hcnd with hcn | hcd
          · subst hcn
            exact hlab c (List.mem_cons_self _ _) hciff
          · subst hcd
            by_cases hdn : c.mainIP = "" ↔ nb.mainIP = ""
            · have h1 : c.label ≤ nb.label := hB hdn
              have h2 : nb.mainIP = "" ↔ best.mainIP = "" := hdn.symm.trans hciff
              exact le_trans h1 (hlab nb (List.mem_cons_self _ _) h2)
            · have hd0 : c.mainIP = "" := by
                by_contra hdne
                have hnb := hA hdne
                exact hdn ⟨fun h => absurd h hdne, fun h => absurd h hnb⟩
              have hnbne : nb.mainIP ≠ "" := by
                intro hnb0
                exact hdn ⟨fun _ => hnb0, fun _ => hd0⟩
              have hbest0 : best.mainIP = "" := hciff.mp hd0
              have hbestne : best.mainIP ≠ "" :=
                hip nb (List.mem_cons_self _ _) hnbne
              exact absurd hbest0 hbestne
        rcases List.mem_cons.mp hc with hcb | hc2
        · exact hhandle (hbd c (Or.inl hcb))
        · rcases List.mem_cons.mp hc2 with hci | hc3
          · exact hhandle (hbd c (Or.inr hci))
          · exact hlab c (List.mem_cons_of_mem _ hc3) hciff
    · have hpf' : goHasPrefix inst.label pfx = false := by
        simpa using hpf
      have hfilter : (inst :: rest).filter (fun i => goHasPrefix i.label pfx)
          = rest.filter (fun i => goHasPrefix i.label pfx) := by
        simp [List.filter_cons, hpf']
      obtain ⟨best, hbest, hmem, hip, hlab⟩ := ih b
      exact ⟨best, by rw [firstInstanceLoop_cons_neg pfx inst rest _ hpf', hbest],
        by rw [hfilter]; exact hmem,
        by rw [hfilter]; exact hip,
        by rw [hfilter]; exact hlab⟩

theorem firstInstanceLoop_none_spec (pfx : String) (l : List vultrInstance) :
    (l.filter (fun i => goHasPrefix i.label pfx) = [] ∧ firstInstanceLoop pfx l none = none) ∨
    (∃ best, firstInstanceLoop pfx l none = some best ∧
      best ∈ l.filter (fun i => goHasPrefix i.label pfx) ∧
      (∀ c ∈ l.filter (fun i => goHasPrefix i.label pfx), c.mainIP ≠ "" → best.mainIP ≠ "") ∧
      (∀ c ∈ l.filter (fun i => goHasPrefix i.label pfx),
        (c.mainIP = "" ↔ best.mainIP = "") → c.label ≤ best.label)) := by
  induction l with
  | nil => exact Or.inl ⟨rfl, rfl⟩
  | cons inst rest ih =>
    by_cases hpf : goHasPrefix inst.label pfx = true
    · have hfilter : (inst :: rest).filter (fun i => goHasPrefix i.label pfx)
          = inst :: rest.filter (fun i => goHasPrefix i.label pfx) := by
        simp [List.filter_cons, hpf]
      obtain ⟨best, hbest, hmem, hip, hlab⟩ := firstInstanceLoop_some_spec pfx rest inst
      refine Or.inr ⟨best, ?_, ?_, ?_, ?_⟩
      · rw [firstInstanceLoop_cons_none pfx inst rest hpf, hbest]
      · rw [hfilter]
        exact hmem
      · rw [hfilter]
        exact hip
      · rw [hfilter]
        exact hlab
    · have hpf' : goHasPrefix inst.label pfx = false := by
        simpa using hpf
      have hfilter : (inst :: rest).filter (fun i => goHasPrefix i.label pfx)
          = rest.filter (fun i => goHasPrefix i.label pfx) := by
        simp [List.filter_cons, hpf']
      rw [firstInstanceLoop_cons_neg pfx inst rest none hpf', hfilter]
      exact ih

/-- C8: on a listing, the managed-instance query returns the not-found
error exactly when no label carries the prefix; otherwise it returns a
prefix-matching instance that has a non-empty network address whenever any
match does, and whose label is lexicographically greatest among the
matches of the same address-presence class. -/
theorem firstInstance_selection_spec (pfx : String) (instances : List vultrInstance) :
    (instances.filter (fun i => goHasPrefix i.label pfx) = [] →
      firstInstanceWithLabelPrefix pfx instances = .error .notFound) ∧
    (instances.filter (fun i => goHasPrefix i.label pfx) ≠ [] →
      ∃ best, firstInstanceWithLabelPrefix pfx instances = .ok best ∧
        best ∈ instances.filter (fun i => goHasPrefix i.label pfx) ∧
        (∀ c ∈ instances.filter (fun i => goHasPrefix i.label pfx),
          c.mainIP ≠ "" → best.mainIP ≠ "") ∧
        (∀ c ∈ instances.filter (fun i => goHasPrefix i.label pfx),
          (c.mainIP = "" ↔ best.mainIP = "") → c.label ≤ best.label)) := by
  rcases firstInstanceLoop_none_spec pfx instances with ⟨hfe, hl⟩ | ⟨best, hl, hmem, hip, hlab⟩
  · constructor
    · intro _
      unfold firstInstanceWithLabelPrefix
      rw [hl]
    · intro hne
      exact absurd hfe hne
  · constructor
    · intro hfe
      rw [hfe] at hmem
      simp at hmem
    · intro _
      refine ⟨best, ?_, hmem, hip, hlab⟩
      unfold firstInstanceWithLabelPrefix
      rw [hl]

/-- C8 witness: a listing with no prefixed label yields the distinguished
not-found error. -/
theorem firstInstance_selection_spec_witness :
    firstInstanceWithLabelPrefix "paropal-" [⟨"i1", "active", "1.2.3.4", "other"⟩]
      = .error .notFound :=
  ( firstInstance_selection_spec "paropal-" [⟨"i1", "active", "1.2.3.4", "other"⟩]).1
    (by decide)

/-! ## C10: label construction round-trips through the prefix match -/

/-- C10: every label produced by `newInstanceLabel` starts with the
managed prefix, so a query over a listing containing an instance created
with such a label finds a managed instance. -/
theorem newInstanceLabel_round_trip (t : GoLocalTime) (instances : List vultrInstance)
    (inst : vultrInstance) (hmem : inst ∈ instances)
    (hlabel : inst.label = newInstanceLabel t) :
    goHasPrefix (newInstanceLabel t) labelPrefix = true ∧
    ∃ best, firstInstanceWithLabelPrefix labelPrefix instances = .ok best ∧
      goHasPrefix best.label labelPrefix = true := by
  have hpf : goHasPrefix (newInstanceLabel t) labelPrefix = true := by
    unfold goHasPrefix newInstanceLabel
    rw [show (labelPrefix ++ formatStamp t).toList
        = labelPrefix.toList ++ (formatStamp t).toList from rfl,
      List.isPrefixOf_iff_prefix]
    exact List.prefix_append _ _
  refine ⟨hpf, ?_⟩
  have hinstpf : goHasPrefix inst.label labelPrefix = true := by
    rw [hlabel]
    exact hpf
  have hinstf : inst ∈ instances.filter (fun i => goHasPrefix i.label labelPrefix) :=
    List.mem_filter.mpr ⟨hmem, hinstpf⟩
  rcases firstInstanceLoop_none_spec labelPrefix instances with ⟨hfe, _⟩ |
    ⟨best, hl, hbmem, _, _⟩
  · rw [hfe] at hinstf
    simp at hinstf
  · refine ⟨best, ?_, (List.mem_filter.mp hbmem).2⟩
    unfold firstInstanceWithLabelPrefix
    rw [hl]

/-- C10 witness: a concrete creation instant and a singleton listing of
the created instance. -/
theorem newInstanceLabel_round_trip_witness :
    goHasPrefix (newInstanceLabel ⟨2, 17, 7, 10, 0⟩) labelPrefix = true :=
  (newInstanceLabel_round_trip ⟨2, 17, 7, 10, 0⟩
    [⟨"id1", "active", "1.2.3.4", newInstanceLabel ⟨2, 17, 7, 10, 0⟩⟩]
    ⟨"id1", "active", "1.2.3.4", newInstanceLabel ⟨2, 17, 7, 10, 0⟩⟩
    (List.mem_singleton.mpr rfl) rfl).1

/-! ## C2: classification of attach failures -/

/-- C2: an attach failure whose text reports the volume already attached
or already in use (case-insensitively) is treated as success exactly in
attempts that resolved an existing instance — whether recorded in the run
state or freshly found — while the attempt that just created the instance
propagates the same failure, and a non-matching attach failure is always
propagated. -/
theorem attach_already_attached_classification
    (env : AttemptEnv) (st : provisionRunState) (msg cc cid : String)
    (inst : vultrInstance) :
    (goTrimSpace st.instanceID ≠ "" →
      env.attachResult st.instanceID = some msg →
      ((ensureParopalInstanceAndBlock env st).1 = none ↔
        isBlockAlreadyAttachedError msg = true)) ∧
    (goTrimSpace st.instanceID = "" →
      attemptResolve env = .ok inst →
      isTerminatingInstanceStatus inst.status = false →
      env.attachResult inst.id = some msg →
      ((ensureParopalInstanceAndBlock env st).1 = none ↔
        isBlockAlreadyAttachedError msg = true)) ∧
    (goTrimSpace st.instanceID = "" →
      attemptResolve env = .error .notFound →
      env.renderResult = .ok cc →
      goCreateInstance env.createResult = .ok cid →
      env.attachResult cid = some msg →
      (ensureParopalInstanceAndBlock env st).1 =
        some ("attach block storage: " ++ msg)) := by
  refine ⟨?_, ?_, ?_⟩
  · intro hpop hatt
    unfold ensureParopalInstanceAndBlock
    rw [if_pos hpop]
    by_cases hb : isBlockAlreadyAttachedError msg
    · simp [attachStep, hatt, hb]
    · simp [attachStep, hatt, hb]
  · intro hpop hres hterm hatt
    unfold ensureParopalInstanceAndBlock
    rw [if_neg (by simp [hpop]), hres]
    by_cases hb : isBlockAlreadyAttachedError msg
    · simp [hterm, attachStep, hatt, hb]
    · simp [hterm, attachStep, hatt, hb]
  · intro hpop hres hrender hcreate hatt
    unfold ensureParopalInstanceAndBlock
    rw [if_neg (by simp [hpop]), hres]
    simp [provisionCreateThenAttach, hrender, hcreate, attachStep, hatt]

/-- C2 witness: the three concrete attempt shapes — run-state recorded,
freshly found, and just created — with an "already attached" failure. -/
theorem attach_already_attached_classification_witness :
    (ensureParopalInstanceAndBlock alreadyAttachedExistingAttempt ⟨"inst-1", "lbl"⟩).1 = none ∧
    (ensureParopalInstanceAndBlock alreadyAttachedExistingAttempt ⟨"", ""⟩).1 = none ∧
    (ensureParopalInstanceAndBlock alreadyAttachedCreateAttempt ⟨"", ""⟩).1 =
      some ("attach block storage: " ++ "Block storage Already Attached to this instance") := by
  refine ⟨?_, ?_, ?_⟩
  · exact ((attach_already_attached_classification alreadyAttachedExistingAttempt
      ⟨"inst-1", "lbl"⟩ "Block storage Already Attached to this instance" "" "inst-9"
      ⟨"inst-1", "active", "203.0.113.7", "paropal-02-17_07-10-00"⟩).1
      (by decide) rfl).mpr (by decide)
  · exact ((attach_already_attached_classification alreadyAttachedExistingAttempt
      ⟨"", ""⟩ "Block storage Already Attached to this instance" "" "inst-9"
      ⟨"inst-1", "active", "203.0.113.7", "paropal-02-17_07-10-00"⟩).2.1
      rfl rfl (by decide) rfl).mpr (by decide)
  · exact (attach_already_attached_classification alreadyAttachedCreateAttempt
      ⟨"", ""⟩ "Block storage Already Attached to this instance" "" "inst-9"
      ⟨"inst-1", "active", "203.0.113.7", "paropal-02-17_07-10-00"⟩).2.2
      rfl rfl rfl rfl rfl

/-! ## C1: create calls across the retry attempts of one invocation -/

theorem ensure_populated (env : AttemptEnv) (st : provisionRunState)
    (h : goTrimSpace st.instanceID ≠ "") :
    ensureParopalInstanceAndBlock env st =
      (attachStep env false st.instanceID, st, ⟨0, 0, 0, [st.instanceID]⟩) := by
  unfold ensureParopalInstanceAndBlock
  rw [if_pos h]

theorem createThenAttach_spec (env : AttemptEnv) (st : provisionRunState) :
    ((provisionCreateThenAttach env st).2.1 = st ∧
      (provisionCreateThenAttach env st).2.2.createSuccesses = 0) ∨
    (goTrimSpace (provisionCreateThenAttach env st).2.1.instanceID ≠ "" ∧
      (provisionCreateThenAttach env st).2.2.createSuccesses = 1) := by
  unfold provisionCreateThenAttach
  rcases hr : env.renderResult with e | cc
  · left
    simp
  · rcases hc : goCreateInstance env.createResult with e | cid
    · left
      simp
    · right
      constructor
      · simpa using goCreateInstance_ok hc
      · simp

theorem ensure_unpopulated (env : AttemptEnv) (st : provisionRunState)
    (h : ¬ goTrimSpace st.instanceID ≠ "") :
    ((ensureParopalInstanceAndBlock env st).2.1 = st ∧
      (ensureParopalInstanceAndBlock env st).2.2.createSuccesses = 0) ∨
    (goTrimSpace (ensureParopalInstanceAndBlock env st).2.1.instanceID ≠ "" ∧
      (ensureParopalInstanceAndBlock env st).2.2.createSuccesses = 1) := by
  unfold ensureParopalInstanceAndBlock
  rw [if_neg h]
  rcases hres : attemptResolve env with e | inst
  · cases e with
    | notFound => exact createThenAttach_spec env st
    | other m =>
      left
      simp
  · dsimp only
    by_cases hterm : isTerminatingInstanceStatus inst.status
    · rw [if_pos hterm]
      exact createThenAttach_spec env st
    · rw [if_neg hterm]
      left
      simp

theorem provision_singleton_obligations (env : AttemptEnv) (st : provisionRunState) :
    ((([(st, (ensureParopalInstanceAndBlock env st).2.2)]).map
        (fun p => p.2.createSuccesses)).sum ≤
      (if goTrimSpace st.instanceID ≠ "" then 0 else 1)) ∧
    (∀ p ∈ [(st, (ensureParopalInstanceAndBlock env st).2.2)],
      goTrimSpace p.1.instanceID ≠ "" →
        p.2.listCalls = 0 ∧ p.2.createCalls = 0 ∧ p.2.attachCalls = [p.1.instanceID]) ∧
    List.Chain' (fun a b => goTrimSpace a.1.instanceID ≠ "" → b.1 = a.1)
      [(st, (ensureParopalInstanceAndBlock env st).2.2)] ∧
    (∀ q ∈ ([(st, (ensureParopalInstanceAndBlock env st).2.2)] :
        List (provisionRunState × AttemptTrace)).head?, q.1 = st) := by
  refine ⟨?_, ?_, by simp, by simp⟩
  · by_cases hpop : goTrimSpace st.instanceID ≠ ""
    · have he := ensure_populated env st hpop
      rw [if_pos hpop]
      simp [he]
    · rw [if_neg hpop]
      rcases ensure_unpopulated env st hpop with ⟨_, h0⟩ | ⟨_, h1⟩
      · simp [h0]
      · simp [h1]
  · intro p hp hpop
    have hpe : p = (st, (ensureParopalInstanceAndBlock env st).2.2) := by
      simpa using hp
    subst hpe
    have he := ensure_populated env st hpop
    rw [he]
    exact ⟨rfl, rfl, rfl⟩

theorem provisionLoop_spec (env : ProvisionLoopEnv) (fuel : Nat) :
    ∀ (k : Nat) (st : provisionRunState) (backoff : Int),
      (((provisionLoop env fuel k st backoff).2.map
          (fun p => p.2.createSuccesses)).sum ≤
        (if goTrimSpace st.instanceID ≠ "" then 0 else 1)) ∧
      (∀ p ∈ (provisionLoop env fuel k st backoff).2,
        goTrimSpace p.1.instanceID ≠ "" →
          p.2.listCalls = 0 ∧ p.2.createCalls = 0 ∧ p.2.attachCalls = [p.1.instanceID]) ∧
      List.Chain' (fun a b => goTrimSpace a.1.instanceID ≠ "" → b.1 = a.1)
        (provisionLoop env fuel k st backoff).2 ∧
      (∀ q ∈ (provisionLoop env fuel k st backoff).2.head?, q.1 = st) := by
  induction fuel with
  | zero =>
    intro k st backoff
    simp [provisionLoop]
  | succ fuel ih =>
    intro k st backoff
    by_cases hcan : env.cancelledAt k
    · simp [provisionLoop, hcan]
    · rcases herr : (ensureParopalInstanceAndBlock (env.attempts k) st).1 with _ | e
      · have hloop : provisionLoop env (fuel + 1) k st backoff =
            (.success, [(st, (ensureParopalInstanceAndBlock (env.attempts k) st).2.2)]) := by
          simp [provisionLoop, hcan, herr]
        rw [hloop]
        exact provision_singleton_obligations (env.attempts k) st
      · by_cases hsleep : env.sleepCancelledAt k
        · have hloop : provisionLoop env (fuel + 1) k st backoff =
              (.sleepCancelled,
                [(st, (ensureParopalInstanceAndBlock (env.attempts k) st).2.2)]) := by
            simp [provisionLoop, hcan, herr, hsleep]
          rw [hloop]
          exact provision_singleton_obligations (env.attempts k) st
        · have hloop : (provisionLoop env (fuel + 1) k st backoff).2 =
              (st, (ensureParopalInstanceAndBlock (env.attempts k) st).2.2) ::
                (provisionLoop env fuel (k + 1)
                  (ensureParopalInstanceAndBlock (env.attempts k) st).2.1
                  (nextBackoff backoff defaultProvisionBackoffMax)).2 := by
            simp [provisionLoop, hcan, herr, hsleep]
          obtain ⟨ihsum, ihP, ihchain, ihhead⟩ :=
            ih (k + 1) (ensureParopalInstanceAndBlock (env.attempts k) st).2.1
              (nextBackoff backoff defaultProvisionBackoffMax)
          rw [hloop]
          refine ⟨?_, ?_, ?_, ?_⟩
          · rw [List.map_cons, List.sum_cons]
            dsimp only
            by_cases hpop : goTrimSpace st.instanceID ≠ ""
            · have he := ensure_populated (env.attempts k) st hpop
              have h0 : (ensureParopalInstanceAndBlock
                  (env.attempts k) st).2.2.createSuccesses = 0 := by
                rw [he]
              have h1 : (ensureParopalInstanceAndBlock (env.attempts k) st).2.1 = st := by
                rw [he]
              have hpop' : goTrimSpace
                  (ensureParopalInstanceAndBlock (env.attempts k) st).2.1.instanceID ≠ "" := by
                rw [h1]
                exact hpop
              rw [if_pos hpop'] at ihsum
              rw [if_pos hpop]
              omega
            · rw [if_neg hpop]
              rcases ensure_unpopulated (env.attempts k) st hpop with ⟨h1, h0⟩ | ⟨hp, h1⟩
              · have hpop' : ¬ goTrimSpace
                    (ensureParopalInstanceAndBlock (env.attempts k) st).2.1.instanceID ≠ "" := by
                  rw [h1]
                  exact hpop
                rw [if_neg hpop'] at ihsum
                omega
              · rw [if_pos hp] at ihsum
                omega
          · intro p hp
            rcases List.mem_cons.mp hp with hpe | hpm
            · subst hpe
              intro hpop
              have he := ensure_populated (env.attempts k) st hpop
              rw [he]
              exact ⟨rfl, rfl, rfl⟩
            · exact ihP p hpm
          · rw [List.chain'_cons']
            refine ⟨?_, ihchain⟩
            intro b hb hpop
            have he := ensure_populated (env.attempts k) st hpop
            have h1 : (ensureParopalInstanceAndBlock (env.attempts k) st).2.1 = st := by
              rw [he]
            rw [← h1]
            exact ihhead b hb
          · intro q hq
            have hqe : (st, (ensureParopalInstanceAndBlock (env.attempts k) st).2.2) = q := by
              simpa using hq
            rw [← hqe]

/-- C1 counterexample: when the create call itself fails (here with a
transport error on every attempt while the listing stays empty), the run
state stays empty and the next retry issues another create call, so a
single invocation makes two create calls within two attempts — the claim
that at most one create call is made does not hold; only successful
creates are unique. -/
theorem provision_single_create_counterexample :
    (((reconcileEnsureParopalInstance createFailsEnv 2).2).map
        (fun p => p.2.createCalls)).sum = 2 := by
  decide

/-- C1 (amended): across all retry attempts of one invocation, at most one
create call succeeds (rather than: at most one create call is made); and
once the per-invocation run state records a non-empty created instance id,
every later attempt skips the existence query and the create path entirely
and only retries attaching to the recorded id, the run state staying
unchanged from one such attempt to the next. -/
theorem provision_single_create_amended (env : ProvisionLoopEnv) (fuel : Nat) :
    (((reconcileEnsureParopalInstance env fuel).2).map
        (fun p => p.2.createSuccesses)).sum ≤ 1 ∧
    (∀ p ∈ (reconcileEnsureParopalInstance env fuel).2,
      goTrimSpace p.1.instanceID ≠ "" →
        p.2.listCalls = 0 ∧ p.2.createCalls = 0 ∧ p.2.attachCalls = [p.1.instanceID]) ∧
    List.Chain' (fun a b => goTrimSpace a.1.instanceID ≠ "" → b.1 = a.1)
      (reconcileEnsureParopalInstance env fuel).2 := by
  obtain ⟨hsum, hP, hchain, _⟩ :=
    provisionLoop_spec env fuel 0 ⟨"", ""⟩ defaultProvisionBackoffMin
  refine ⟨?_, hP, hchain⟩
  have hemp : ¬ goTrimSpace (provisionRunState.mk "" "").instanceID ≠ "" := by decide
  rw [if_neg hemp] at hsum
  exact hsum

/-- C1 witness: the amended bound applied to a concrete three-attempt
environment. -/
theorem provision_single_create_amended_witness :
    (((reconcileEnsureParopalInstance createFailsEnv 3).2).map
        (fun p => p.2.createSuccesses)).sum ≤ 1 :=
  (provision_single_create_amended createFailsEnv 3).1

/-! ## C4: the cutoff check precedes every network call -/

/-- C4: on any loop iteration — in particular at the invocation itself —
with cancellation not signalled, if the current time is at or past the
cutoff the cleanup reconciler returns at once reporting the cutoff stop,
with zero list calls and zero delete calls. -/
theorem cleanup_cutoff_precedes_calls {σ : Type} (w : CleanupWorld σ)
    (cutoff : Int) (cfg : CleanupConfig) (fuel : Nat) (s s₁ s₂ : σ) (n : Int)
    (hctx : w.ctxErr s = (false, s₁)) (hnow : w.timeNow s₁ = (n, s₂))
    (hcut : cutoff ≤ n) :
    reconcileDestroyAllInstances w cutoff cfg (fuel + 1) s =
      (.cutoffStop, ⟨0, 0⟩, s₂) := by
  unfold reconcileDestroyAllInstances
  simp [cleanupLoop, hctx, hnow, not_lt.mpr hcut]

/-- C4 witness: a past cutoff against the simulated cloud with a
non-empty inventory makes no calls at all. -/
theorem cleanup_cutoff_precedes_calls_witness :
    reconcileDestroyAllInstances cloudSimWorld (-1) defaultCleanupConfig 1 ⟨twoInstances⟩ =
      (.cutoffStop, ⟨0, 0⟩, ⟨twoInstances⟩) :=
  cleanup_cutoff_precedes_calls cloudSimWorld (-1) defaultCleanupConfig 0
    ⟨twoInstances⟩ ⟨twoInstances⟩ ⟨twoInstances⟩ 0 rfl rfl (by decide)

/-! ## C3: convergence of the cleanup reconciler without failures -/

theorem cloudSim_deletePass (interval : Int) (l : List vultrInstance) :
    ∀ (inv : List vultrInstance) (failures deletes : Nat),
      (∀ i ∈ l, i.id ≠ "") →
      cleanupDeletePass cloudSimWorld 1 interval l failures deletes ⟨inv⟩ =
        (none, failures, deletes + l.length, ⟨removeIds l inv⟩) := by
  induction l with
  | nil =>
    intro inv failures deletes _
    simp [cleanupDeletePass, removeIds]
  | cons inst rest ih =>
    intro inv failures deletes hids
    have hid : inst.id ≠ "" := hids inst (List.mem_cons_self _ _)
    have hrec := ih (inv.filter (fun x => x.id != inst.id)) failures (deletes + 1)
      (fun i hi => hids i (List.mem_cons_of_mem _ hi))
    have hstep : cleanupDeletePass cloudSimWorld 1 interval (inst :: rest)
        failures deletes ⟨inv⟩ =
        cleanupDeletePass cloudSimWorld 1 interval rest failures (deletes + 1)
          ⟨inv.filter (fun x => x.id != inst.id)⟩ := by
      simp [cleanupDeletePass, cloudSimWorld, hid, sleepWithContextUntil,
        (by decide : (0 : Int) < 1), (by decide : ((1 : Int) = 0) = False),
        (by decide : ¬ (1 : Int) ≤ 0)]
    rw [hstep, hrec]
    have h1 : removeIds rest (inv.filter (fun x => x.id != inst.id))
        = removeIds (inst :: rest) inv := rfl
    rw [h1]
    have h2 : deletes + 1 + rest.length = deletes + (inst :: rest).length := by
      simp [List.length_cons]
      omega
    rw [h2]

theorem removeIds_eliminates (l : List vultrInstance) :
    ∀ acc : List vultrInstance,
      (∀ x ∈ acc, ∃ i ∈ l, i.id = x.id) → removeIds l acc = [] := by
  induction l with
  | nil =>
    intro acc hacc
    have hacc0 : acc = [] := by
      cases acc with
      | nil => rfl
      | cons a as =>
        obtain ⟨i, hi, _⟩ := hacc a (List.mem_cons_self _ _)
        simp at hi
    rw [hacc0]
    rfl
  | cons j rest ih =>
    intro acc hacc
    show removeIds rest (acc.filter (fun x => x.id != j.id)) = []
    apply ih
    intro x hx
    obtain ⟨hxacc, hxne⟩ := List.mem_filter.mp hx
    have hxne' : x.id ≠ j.id := by
      simpa using hxne
    obtain ⟨i, hi, hieq⟩ := hacc x hxacc
    rcases List.mem_cons.mp hi with hij | hirest
    · exact absurd (hieq.symm.trans (hij ▸ rfl : i.id = j.id)) hxne'
    · exact ⟨i, hirest, hieq⟩

theorem removeIds_self (inv : List vultrInstance) : removeIds inv inv = [] :=
  removeIds_eliminates inv inv (fun x hx => ⟨x, hx, rfl⟩)

/-- C3: against a simulated cloud where every list and delete call
succeeds, every listed instance has a non-empty id, and neither the cutoff
nor cancellation intervenes, the cleanup reconciler terminates complete
with an empty inventory, exactly N delete calls, and exactly two list
calls (the initial pass plus the verification after the settle delay); the
inventory's labels are arbitrary, so no label-prefix filter is applied. -/
theorem cloudSim_ctxErr (s : CloudSimState) : cloudSimWorld.ctxErr s = (false, s) := rfl

theorem cloudSim_timeNow (s : CloudSimState) : cloudSimWorld.timeNow s = (0, s) := rfl

theorem cloudSim_listAll (s : CloudSimState) :
    cloudSimWorld.listAll s = (.ok s.inventory, s) := rfl

theorem cloudSim_sleepCancelled (s : CloudSimState) :
    cloudSimWorld.sleepCancelled s = (false, s) := rfl

theorem cleanup_converges_no_failures (inv : List vultrInstance)
    (cfg : CleanupConfig) (fuel : Nat)
    (hne : 0 < inv.length) (hids : ∀ i ∈ inv, i.id ≠ "") :
    reconcileDestroyAllInstances cloudSimWorld 1 cfg (fuel + 2) ⟨inv⟩ =
      (.complete, ⟨2, inv.length⟩, ⟨[]⟩) := by
  have hne' : inv.length ≠ 0 := Nat.pos_iff_ne_zero.mp hne
  have hpass := cloudSim_deletePass cfg.passDeleteInterval inv inv 0 0 hids
  rw [removeIds_self] at hpass
  unfold reconcileDestroyAllInstances
  simp [cleanupLoop, cloudSim_ctxErr, cloudSim_timeNow, cloudSim_listAll,
    cloudSim_sleepCancelled, hne', hpass, sleepWithContextUntil,
    sleepWithContext, (by decide : (0 : Int) < 1),
    (by decide : ((1 : Int) = 0) = False), (by decide : ¬ (1 : Int) ≤ 0)]

/-- C3 witness: a concrete two-instance inventory with unmanaged labels is
fully destroyed with two list calls and two delete calls. -/
theorem cleanup_converges_no_failures_witness :
    reconcileDestroyAllInstances cloudSimWorld 1 defaultCleanupConfig 2 ⟨twoInstances⟩ =
      (.complete, ⟨2, twoInstances.length⟩, ⟨[]⟩) :=
  cleanup_converges_no_failures twoInstances defaultCleanupConfig 0
    (by decide) (by decide)
